import Mathlib

/-!
Verification of the Onyria dream-journal AI-orchestration core.

Shallow embedding of `DreamProject/diary/utils.py`, `views.py`, `models.py`
and `constants.py`.  Python dict-valued data is modelled by association
lists, machine floats by `ℚ` (or `ℝ` where the code applies `math.exp`),
fallible code by explicit result types.
-/

namespace Onyria

/-! ## Python string membership (`needle in haystack`) -/

/-- `needleIsPrefix n h` is true when the character list `n` is a prefix of `h`. -/
def needleIsPrefix : List Char → List Char → Bool
  | [], _ => true
  | _ :: _, [] => false
  | n :: ns, h :: hs => n = h && needleIsPrefix ns hs

/-- `containsSub hay needle`: `needle` occurs as a contiguous sublist of `hay`
(Python `needle in hay` on strings). -/
def containsSub : List Char → List Char → Bool
  | [], needle => needle.isEmpty
  | h :: t, needle => needleIsPrefix needle (h :: t) || containsSub t needle

/-- Python `needle in hay` for strings. -/
def strContains (hay needle : String) : Bool :=
  containsSub hay.data needle.data

/-- Python `s.lower()`; the error texts and keywords compared in the source
are ASCII, for which lowering each character agrees with Python. -/
def pyLower (s : String) : String :=
  ⟨s.data.map Char.toLower⟩

/-! ## Resilient call layer — `safe_mistral_call` (utils.py lines 458-558) -/

/-- Outcome of one transport call to a model: the Python code either gets a
response object back or an exception whose text is inspected. -/
inductive CallResult where
  | success (response : String)
  | failure (errorText : String)
deriving DecidableEq

/-- Result of `safe_mistral_call`: a response, `None` (all fallbacks failed
recoverably), or a re-raised exception. -/
inductive SafeOutcome where
  | ok (response : String)
  | noResponse
  | raised (errorText : String)
deriving DecidableEq

/-- The keyword list of utils.py lines 520-530: errors whose lowered text
contains one of these substrings trigger the fallback chain. -/
def FALLBACK_ERROR_KEYWORDS : List String :=
  ["insufficient_quota", "quota_exceeded", "rate_limit",
   "model_not_found", "service_unavailable", "timeout"]

/-- `any(keyword in error_msg for keyword in [...])` with
`error_msg = str(e).lower()` (utils.py line 516, 520). -/
def isRecoverableError (e : String) : Bool :=
  FALLBACK_ERROR_KEYWORDS.any (fun k => strContains (pyLower e) k)

/-- A call result that is a failure with recoverable error text. -/
def isRecoverableFailure : CallResult → Bool
  | .success _ => false
  | .failure e => isRecoverableError e

/-- The static fallback hierarchy of utils.py lines 474-483, with
`fallback_chain.get(model, [])` (line 485): unknown models get `[]`. -/
def fallback_chain (model : String) : List String :=
  if model = "mistral-large-latest" then
    ["mistral-medium", "mistral-small-latest", "open-mistral-7b"]
  else if model = "mistral-medium" then
    ["mistral-small-latest", "open-mistral-7b"]
  else if model = "mistral-small-latest" then
    ["open-mistral-7b"]
  else if model = "open-mistral-7b" then
    []
  else
    []

/-- The `for attempt, current_model in enumerate(models_to_try)` loop of
utils.py lines 488-558, returning the outcome together with the list of
models actually attempted, in order.  On success the loop returns the
response; on a recoverable failure it returns `None` when this was the last
candidate and otherwise continues; on any other failure it re-raises. -/
def safeMistralGo (transport : String → CallResult) : List String → SafeOutcome × List String
  | [] => (.noResponse, [])
  | m :: rest =>
    match transport m with
    | .success r => (.ok r, [m])
    | .failure e =>
      if isRecoverableError e then
        if rest.isEmpty then (.noResponse, [m])
        else
          let res := safeMistralGo transport rest
          (res.1, m :: res.2)
      else (.raised e, [m])

/-- `safe_mistral_call(model, messages, operation)` (utils.py lines 458-558)
over a dependency-injected transport.  `models_to_try = [model] +
fallback_chain.get(model, [])` (line 485). -/
def safe_mistral_call (transport : String → CallResult) (model : String) :
    SafeOutcome × List String :=
  safeMistralGo transport (model :: fallback_chain model)

theorem safeMistralGo_cons_recoverable (transport : String → CallResult)
    (m e : String) (rest : List String) (htm : transport m = .failure e)
    (hrec : isRecoverableError e = true) (hne : rest ≠ []) :
    safeMistralGo transport (m :: rest) =
      ((safeMistralGo transport rest).1, m :: (safeMistralGo transport rest).2) := by
  cases rest with
  | nil => exact absurd rfl hne
  | cons b bs =>
    conv_lhs => rw [safeMistralGo]
    rw [htm]
    simp [hrec]

theorem safeMistralGo_all_recoverable (transport : String → CallResult) :
    ∀ l : List String, l ≠ [] →
      (∀ x ∈ l, isRecoverableFailure (transport x) = true) →
      safeMistralGo transport l = (.noResponse, l) := by
  intro l
  induction l with
  | nil => intro h; exact absurd rfl h
  | cons m rest ih =>
    intro _ hall
    have hm : isRecoverableFailure (transport m) = true := hall m (List.mem_cons_self _ _)
    cases htm : transport m with
    | success r => rw [htm] at hm; simp [isRecoverableFailure] at hm
    | failure e =>
      rw [htm] at hm
      have hrec : isRecoverableError e = true := hm
      cases rest with
      | nil => simp [safeMistralGo, htm, hrec]
      | cons b bs =>
        have hrest : safeMistralGo transport (b :: bs) = (.noResponse, b :: bs) := by
          refine ih (by simp) ?_
          intro x hx
          exact hall x (List.mem_cons_of_mem _ hx)
        rw [safeMistralGo_cons_recoverable transport m e (b :: bs) htm hrec (by simp), hrest]

theorem safeMistralGo_first_success (transport : String → CallResult) :
    ∀ (pre : List String) (m : String) (post : List String) (r : String),
      (∀ x ∈ pre, isRecoverableFailure (transport x) = true) →
      transport m = .success r →
      safeMistralGo transport (pre ++ m :: post) = (.ok r, pre ++ [m]) := by
  intro pre
  induction pre with
  | nil =>
    intro m post r _ hm
    simp [safeMistralGo, hm]
  | cons p ps ih =>
    intro m post r hall hm
    have hp : isRecoverableFailure (transport p) = true := hall p (List.mem_cons_self _ _)
    cases htp : transport p with
    | success s => rw [htp] at hp; simp [isRecoverableFailure] at hp
    | failure e =>
      rw [htp] at hp
      have hrec : isRecoverableError e = true := hp
      have hrest := ih m post r (fun x hx => hall x (List.mem_cons_of_mem _ hx)) hm
      rw [show p :: ps ++ m :: post = p :: (ps ++ m :: post) from rfl,
        safeMistralGo_cons_recoverable transport p e (ps ++ m :: post) htp hrec
          (by cases ps <;> simp), hrest]
      simp

/-- C1: for every primary model and every scripted transport,
`safe_mistral_call` attempts `[model] + fallback_chain.get(model, [])` in
order; it returns the first successful response immediately (having attempted
exactly the preceding recoverable failures plus the succeeding model); when
every candidate fails recoverably it returns `None` having attempted exactly
`len(chain) + 1` models; and an unknown primary gets an empty continuation. -/
theorem safe_call_attempt_sequence (transport : String → CallResult) (model : String) :
    ((∀ x ∈ model :: fallback_chain model, isRecoverableFailure (transport x) = true) →
       safe_mistral_call transport model = (.noResponse, model :: fallback_chain model) ∧
       (model :: fallback_chain model).length = (fallback_chain model).length + 1) ∧
    (∀ (pre : List String) (m : String) (post : List String) (r : String),
       model :: fallback_chain model = pre ++ m :: post →
       (∀ x ∈ pre, isRecoverableFailure (transport x) = true) →
       transport m = .success r →
       safe_mistral_call transport model = (.ok r, pre ++ [m])) ∧
    (model ∉ ["mistral-large-latest", "mistral-medium", "mistral-small-latest",
              "open-mistral-7b"] →
       fallback_chain model = []) := by
  refine ⟨?_, ?_, ?_⟩
  · intro hall
    refine ⟨safeMistralGo_all_recoverable transport _ (by simp) hall, by simp⟩
  · intro pre m post r hseq hall hm
    unfold safe_mistral_call
    rw [hseq]
    exact safeMistralGo_first_success transport pre m post r hall hm
  · intro hout
    simp only [List.mem_cons, List.mem_singleton] at hout
    push_neg at hout
    obtain ⟨h1, h2, h3, h4⟩ := hout
    simp [fallback_chain, h1, h2, h3, h4]

/-- Witness for C1: a transport failing recoverably on every model makes
`safe_mistral_call` on `"mistral-small-latest"` attempt the full chain
`["mistral-small-latest", "open-mistral-7b"]` (= chain length 1 + 1 calls)
and return `None`. -/
theorem safe_call_attempt_sequence_witness :
    safe_mistral_call (fun _ => .failure "quota_exceeded") "mistral-small-latest" =
      (.noResponse, ["mistral-small-latest", "open-mistral-7b"]) ∧
    (("mistral-small-latest" : String) :: fallback_chain "mistral-small-latest").length = 2 := by
  have h := (safe_call_attempt_sequence (fun _ => .failure "quota_exceeded")
    "mistral-small-latest").1 (by decide)
  exact ⟨h.1.trans (by decide), by decide⟩

/-- C2: a non-recoverable error (text containing none of the recoverable
substrings) on the first attempted model is re-raised immediately, with
exactly one model attempted and no fallback tried. -/
theorem safe_call_nonrecoverable_raises (transport : String → CallResult)
    (model e : String) (h1 : transport model = .failure e)
    (h2 : isRecoverableError e = false) :
    safe_mistral_call transport model = (.raised e, [model]) ∧
    ([model] : List String).length = 1 := by
  constructor
  · unfold safe_mistral_call
    simp [safeMistralGo, h1, h2]
  · rfl

/-- Witness for C2: `"authentication_failed"` is non-recoverable, so the call
raises after exactly one attempt. -/
theorem safe_call_nonrecoverable_raises_witness :
    safe_mistral_call (fun _ => .failure "authentication_failed") "mistral-large-latest" =
      (.raised "authentication_failed", ["mistral-large-latest"]) :=
  (safe_call_nonrecoverable_raises (fun _ => .failure "authentication_failed")
    "mistral-large-latest" "authentication_failed" rfl (by decide)).1

/-! ## Python values

`validate_and_fix_interpretation` receives arbitrary parsed JSON, so its
input is modelled by a Python-value type.  Float leaves are omitted (their
`str()` rendering is floating-point formatting, outside this embedding);
none of the verified claims involves float values. -/

inductive PyVal where
  | none
  | bool (b : Bool)
  | int (n : ℤ)
  | str (s : String)
  | list (xs : List PyVal)
  | dict (entries : List (String × PyVal))

/-- The single-quote character used by Python `repr` of strings. -/
def pyQuote : String :=
  String.singleton (Char.ofNat 39)

/-- Python `repr`, used by `str()` on containers.  Strings are wrapped in
single quotes; quote escaping inside strings is not modelled (no verified
input contains a quote). -/
def pyRepr : PyVal → String
  | .none => "None"
  | .bool true => "True"
  | .bool false => "False"
  | .int n => toString n
  | .str s => pyQuote ++ s ++ pyQuote
  | .list xs =>
      "[" ++ String.intercalate ", " (xs.attach.map (fun x => pyRepr x.1)) ++ "]"
  | .dict es =>
      "\x7b" ++
        String.intercalate ", "
          (es.attach.map
            (fun e => pyQuote ++ e.1.1 ++ pyQuote ++ ": " ++ pyRepr e.1.2)) ++
      "\x7d"
decreasing_by
  · have h := List.sizeOf_lt_of_mem x.2
    simp only [PyVal.list.sizeOf_spec]
    omega
  · have h := List.sizeOf_lt_of_mem e.2
    have h2 : sizeOf e.1.2 < sizeOf e.1 := by
      obtain ⟨a, b⟩ := e.1
      simp only [Prod.mk.sizeOf_spec]
      omega
    simp only [PyVal.dict.sizeOf_spec]
    omega

/-- Python `str()`: identity on strings, `repr` otherwise (exact for `None`,
booleans and integers). -/
def pyStr : PyVal → String
  | .str s => s
  | v => pyRepr v

/-- Lookup in a Python dict modelled as an association list (first match). -/
def dictGet {α : Type} (es : List (String × α)) (k : String) : Option α :=
  match es with
  | [] => Option.none
  | (k', v) :: t => if k' = k then Option.some v else dictGet t k

/-- Is this Python value a string? -/
def pyIsStr : PyVal → Bool
  | .str _ => true
  | _ => false

/-- Is this Python value a dict? -/
def pyIsDict : PyVal → Bool
  | .dict _ => true
  | _ => false

/-! ## Interpretation repair — `validate_and_fix_interpretation`
(utils.py lines 236-284) -/

/-- The four fixed interpretation lens keys (utils.py lines 245-250). -/
def EXPECTED_KEYS : List String :=
  ["Émotionnelle", "Symbolique", "Cognitivo-scientifique", "Freudien"]

/-- Placeholder for a missing lens (utils.py line 280). -/
def MISSING_INTERPRETATION : String := "Interprétation non disponible"

/-- Per-key repair of utils.py lines 258-277: a dict value with a
`"contenu"` field yields that field's value as-is, else with a `"content"`
field that field's value as-is, a string is kept, anything else is
`str()`-converted. -/
def fixValue (v : PyVal) : PyVal :=
  match v with
  | .dict ves =>
    match dictGet ves "contenu" with
    | Option.some c => c
    | Option.none =>
      match dictGet ves "content" with
      | Option.some c => c
      | Option.none => .str (pyStr (.dict ves))
  | .str s => .str s
  | v => .str (pyStr v)

/-- `validate_and_fix_interpretation(interpretation_data)` (utils.py lines
236-284).  `None` is returned unchanged; on any other non-dict input the
eagerly evaluated debug log `list(interpretation_data.keys())` (line 253)
raises `AttributeError`; a dict is rebuilt over exactly the four expected
keys, absent keys filled with the placeholder. -/
def validate_and_fix_interpretation (d : PyVal) : Except String PyVal :=
  match d with
  | .none => .ok .none
  | .dict es =>
    .ok (.dict (EXPECTED_KEYS.map (fun key =>
      match dictGet es key with
      | Option.some v => (key, fixValue v)
      | Option.none => (key, .str MISSING_INTERPRETATION))))
  | _ => .error "AttributeError"

theorem dictGet_mapKeys (f : String → PyVal) :
    ∀ (keys : List String) (key : String), key ∈ keys →
      dictGet (keys.map (fun k => (k, f k))) key = Option.some (f key) := by
  intro keys
  induction keys with
  | nil => intro key h; simp at h
  | cons k t ih =>
    intro key h
    by_cases hk : k = key
    · simp [dictGet, hk]
    · have : key ∈ t := by
        rcases List.mem_cons.mp h with h1 | h2
        · exact absurd h1.symm hk
        · exact h2
      simp [dictGet, hk, ih key this]

/-- C5 counterexample: the claim "it never raises" fails on the non-dict
input `5` (the debug log calls `.keys()` on it), and the claim "each value a
string" fails on `\x7b"Émotionnelle": \x7b"contenu": 42\x7d\x7d`, whose
extracted `contenu` value `42` is kept as an integer. -/
theorem validate_and_fix_claim_counterexample :
    validate_and_fix_interpretation (.int 5) = .error "AttributeError" ∧
    validate_and_fix_interpretation
        (.dict [("Émotionnelle", .dict [("contenu", .int 42)])]) =
      .ok (.dict [("Émotionnelle", .int 42),
                  ("Symbolique", .str MISSING_INTERPRETATION),
                  ("Cognitivo-scientifique", .str MISSING_INTERPRETATION),
                  ("Freudien", .str MISSING_INTERPRETATION)]) ∧
    pyIsStr (.int 42) = false := by
  refine ⟨rfl, ?_, rfl⟩
  rfl

/-- C5 amended: `None` is returned unchanged; every dict input is repaired
without raising into a dict with exactly the four lens keys, where a present
string is kept, a dict value with a `contenu`/`content` field is replaced by
that field's value as-is (not string-converted), any other present value is
string-converted, and absent keys get the fixed placeholder; any other input
raises `AttributeError`. -/
theorem validate_and_fix_interpretation_amended :
    validate_and_fix_interpretation .none = .ok .none ∧
    (∀ es : List (String × PyVal), ∃ out : List (String × PyVal),
      validate_and_fix_interpretation (.dict es) = .ok (.dict out) ∧
      out.map Prod.fst = EXPECTED_KEYS ∧
      (∀ key ∈ EXPECTED_KEYS,
        (dictGet es key = Option.none →
          dictGet out key = Option.some (.str MISSING_INTERPRETATION)) ∧
        (∀ s, dictGet es key = Option.some (.str s) →
          dictGet out key = Option.some (.str s)) ∧
        (∀ ves c, dictGet es key = Option.some (.dict ves) →
          dictGet ves "contenu" = Option.some c →
          dictGet out key = Option.some c) ∧
        (∀ ves c, dictGet es key = Option.some (.dict ves) →
          dictGet ves "contenu" = Option.none →
          dictGet ves "content" = Option.some c →
          dictGet out key = Option.some c) ∧
        (∀ v, dictGet es key = Option.some v → pyIsStr v = false →
          pyIsDict v = false →
          dictGet out key = Option.some (.str (pyStr v))))) ∧
    (∀ v : PyVal, v ≠ .none → (∀ es, v ≠ .dict es) →
      validate_and_fix_interpretation v = .error "AttributeError") := by
  refine ⟨rfl, ?_, ?_⟩
  · intro es
    have hsame : (EXPECTED_KEYS.map (fun key =>
        match dictGet es key with
        | Option.some v => (key, fixValue v)
        | Option.none => (key, PyVal.str MISSING_INTERPRETATION))) =
        (EXPECTED_KEYS.map (fun k =>
          (k, match dictGet es k with
              | Option.some v => fixValue v
              | Option.none => PyVal.str MISSING_INTERPRETATION))) := by
      apply List.map_congr_left
      intro k _
      cases dictGet es k <;> rfl
    refine ⟨EXPECTED_KEYS.map (fun k =>
      (k, match dictGet es k with
          | Option.some v => fixValue v
          | Option.none => PyVal.str MISSING_INTERPRETATION)), ?_, ?_, ?_⟩
    · exact congrArg (fun l => Except.ok (PyVal.dict l)) hsame
    · rw [List.map_map]
      have hid : (Prod.fst ∘ fun k : String =>
          (k, match dictGet es k with
              | Option.some v => fixValue v
              | Option.none => PyVal.str MISSING_INTERPRETATION)) = id := rfl
      rw [hid, List.map_id]
    · intro key hkey
      have hout : dictGet (EXPECTED_KEYS.map (fun k =>
          (k, match dictGet es k with
              | Option.some v => fixValue v
              | Option.none => PyVal.str MISSING_INTERPRETATION))) key =
          Option.some (match dictGet es key with
            | Option.some v => fixValue v
            | Option.none => PyVal.str MISSING_INTERPRETATION) :=
        dictGet_mapKeys _ EXPECTED_KEYS key hkey
      refine ⟨?_, ?_, ?_, ?_, ?_⟩
      · intro hnone; rw [hout, hnone]
      · intro s hs; rw [hout, hs]; rfl
      · intro ves c hv hc; rw [hout, hv]
        simp only [fixValue, hc]
      · intro ves c hv hc1 hc2; rw [hout, hv]
        simp only [fixValue, hc1, hc2]
      · intro v hv hstr hdict; rw [hout, hv]
        cases v <;> simp_all [pyIsStr, pyIsDict, fixValue]
  · intro v hnone hdict
    cases v with
    | none => exact absurd rfl hnone
    | dict es => exact absurd rfl (hdict es)
    | bool b => rfl
    | int n => rfl
    | str s => rfl
    | list xs => rfl

/-- Witness for C5 amended: the spec scenario — `"Émotionnelle"` carrying a
`contenu` envelope and the other three keys missing — yields all four keys,
with `"Émotionnelle"` equal to the envelope content and the rest equal to the
placeholder. -/
theorem validate_and_fix_interpretation_amended_witness :
    ∃ out : List (String × PyVal),
      validate_and_fix_interpretation
          (.dict [("Émotionnelle", .dict [("contenu", .str "X")])]) =
        .ok (.dict out) ∧
      out.map Prod.fst = EXPECTED_KEYS ∧
      dictGet out "Émotionnelle" = Option.some (.str "X") ∧
      dictGet out "Symbolique" = Option.some (.str MISSING_INTERPRETATION) := by
  obtain ⟨out, h1, h2, hkeys⟩ :=
    validate_and_fix_interpretation_amended.2.1
      [("Émotionnelle", .dict [("contenu", .str "X")])]
  refine ⟨out, h1, h2, ?_, ?_⟩
  · exact (hkeys "Émotionnelle" (by simp [EXPECTED_KEYS])).2.2.1
      [("contenu", .str "X")] (.str "X") rfl rfl
  · exact (hkeys "Symbolique" (by simp [EXPECTED_KEYS])).1 rfl

/-! ## Softmax — `softmax(preds)` (utils.py lines 229-233)

The Python code computes `exp = \x7bk: math.exp(v)\x7d`, `total =
sum(exp.values())`, and returns `\x7bk: v / total\x7d`.  Float arithmetic is
modelled by exact reals, so the "sum within 1e-5 of 1" tolerance of the
claim holds with slack. -/

noncomputable def softmax (preds : List (String × ℝ)) : List (String × ℝ) :=
  let expPreds := preds.map (fun p => (p.1, Real.exp p.2))
  let total := (expPreds.map Prod.snd).sum
  expPreds.map (fun p => (p.1, p.2 / total))

/-- The exponential total used by `softmax`. -/
noncomputable def softmaxTotal (preds : List (String × ℝ)) : ℝ :=
  (preds.map (fun p => Real.exp p.2)).sum

theorem softmax_eq (preds : List (String × ℝ)) :
    softmax preds = preds.map (fun p => (p.1, Real.exp p.2 / softmaxTotal preds)) := by
  simp only [softmax, softmaxTotal, List.map_map]
  apply List.map_congr_left
  intro p _
  rfl

theorem softmax_length (preds : List (String × ℝ)) :
    (softmax preds).length = preds.length := by
  simp [softmax]

theorem softmaxTotal_pos (preds : List (String × ℝ)) (hne : preds ≠ []) :
    0 < softmaxTotal preds := by
  refine List.sum_pos _ ?_ ?_
  · intro x hx
    obtain ⟨p, _, rfl⟩ := List.mem_map.mp hx
    exact Real.exp_pos _
  · simpa using hne

theorem sum_map_exp_nonneg (l : List (String × ℝ)) :
    0 ≤ (l.map (fun p => Real.exp p.2)).sum := by
  induction l with
  | nil => simp
  | cons a t ih =>
    simp only [List.map_cons, List.sum_cons]
    have ha : 0 < Real.exp a.2 := Real.exp_pos _
    linarith

theorem exp_le_softmaxTotal (preds : List (String × ℝ)) :
    ∀ q ∈ preds, Real.exp q.2 ≤ softmaxTotal preds := by
  unfold softmaxTotal
  induction preds with
  | nil => intro q hq; simp at hq
  | cons a t ih =>
    intro q hq
    simp only [List.map_cons, List.sum_cons]
    rcases List.mem_cons.mp hq with h1 | h2
    · have := sum_map_exp_nonneg t
      rw [h1]
      linarith
    · have := ih q h2
      have ha : 0 < Real.exp a.2 := Real.exp_pos _
      linarith

theorem sum_map_exp_div (preds : List (String × ℝ)) (c : ℝ) :
    (preds.map (fun p => Real.exp p.2 / c)).sum = softmaxTotal preds / c := by
  unfold softmaxTotal
  induction preds with
  | nil => simp
  | cons a t ih =>
    simp only [List.map_cons, List.sum_cons, ih]
    rw [add_div]

/-- C7: on any nonempty score mapping, `softmax` produces values each in
(0, 1] summing to exactly 1 (hence within 1e-5), and strictly preserves the
ordering of the raw inputs position by position. -/
theorem softmax_properties (preds : List (String × ℝ)) (hne : preds ≠ []) :
    (∀ p ∈ softmax preds, 0 < p.2 ∧ p.2 ≤ 1) ∧
    ((softmax preds).map Prod.snd).sum = 1 ∧
    |((softmax preds).map Prod.snd).sum - 1| ≤ 1 / 100000 ∧
    (∀ (i j : ℕ) (hi : i < preds.length) (hj : j < preds.length)
       (hi2 : i < (softmax preds).length) (hj2 : j < (softmax preds).length),
       (preds.get ⟨j, hj⟩).2 < (preds.get ⟨i, hi⟩).2 →
       ((softmax preds).get ⟨j, hj2⟩).2 < ((softmax preds).get ⟨i, hi2⟩).2) := by
  have htot := softmaxTotal_pos preds hne
  have hsum : ((softmax preds).map Prod.snd).sum = 1 := by
    rw [softmax_eq, List.map_map]
    have hfun : (Prod.snd ∘ fun p : String × ℝ =>
        (p.1, Real.exp p.2 / softmaxTotal preds)) =
        fun p : String × ℝ => Real.exp p.2 / softmaxTotal preds := rfl
    rw [hfun, sum_map_exp_div preds (softmaxTotal preds)]
    exact div_self (ne_of_gt htot)
  refine ⟨?_, hsum, ?_, ?_⟩
  · intro p hp
    rw [softmax_eq] at hp
    obtain ⟨q, hq, rfl⟩ := List.mem_map.mp hp
    constructor
    · exact div_pos (Real.exp_pos _) htot
    · rw [div_le_one htot]
      exact exp_le_softmaxTotal preds q hq
  · rw [hsum]
    norm_num
  · intro i j hi hj hi2 hj2 hlt
    have hgeti : ((softmax preds).get ⟨i, hi2⟩).2 =
        Real.exp ((preds.get ⟨i, hi⟩).2) / softmaxTotal preds := by
      rw [List.get_eq_getElem, List.getElem_of_eq (softmax_eq preds) hi2,
        List.getElem_map]
      simp [List.get_eq_getElem]
    have hgetj : ((softmax preds).get ⟨j, hj2⟩).2 =
        Real.exp ((preds.get ⟨j, hj⟩).2) / softmaxTotal preds := by
      rw [List.get_eq_getElem, List.getElem_of_eq (softmax_eq preds) hj2,
        List.getElem_map]
      simp [List.get_eq_getElem]
    rw [hgeti, hgetj]
    exact (div_lt_div_iff_of_pos_right htot).mpr (Real.exp_lt_exp.mpr hlt)

/-- Witness for C7 at the concrete mapping [("a", 0), ("b", 1)]: positivity
and unit sum hold, and the larger raw score keeps the larger softmax score. -/
theorem softmax_properties_witness :
    (∀ p ∈ softmax [("a", (0 : ℝ)), ("b", 1)], 0 < p.2 ∧ p.2 ≤ 1) ∧
    ((softmax [("a", (0 : ℝ)), ("b", 1)]).map Prod.snd).sum = 1 ∧
    ((softmax [("a", (0 : ℝ)), ("b", 1)]).get
        ⟨0, by rw [softmax_length]; norm_num⟩).2 <
      ((softmax [("a", (0 : ℝ)), ("b", 1)]).get
        ⟨1, by rw [softmax_length]; norm_num⟩).2 := by
  obtain ⟨h1, h2, _, h4⟩ := softmax_properties [("a", (0 : ℝ)), ("b", 1)] (by simp)
  refine ⟨h1, h2, ?_⟩
  exact h4 1 0 (by norm_num) (by norm_num) (by rw [softmax_length]; norm_num)
    (by rw [softmax_length]; norm_num) (by simp)

/-! ## Dream classifier — `classify_dream(emotions)` (utils.py lines 629-650)

The positive/negative emotion name lists come from
`diary/prompt/reference_emotions.json`, a data file read at call time; the
function is parameterized by its content, so every theorem below holds for
every taxonomy.  Emotion scores are floats in the source, modelled by `ℚ`. -/

/-- The `"positif"` / `"negatif"` name lists of `reference_emotions.json`. -/
structure EmotionRef where
  positif : List String
  negatif : List String

/-- `[emotions[e] for e in ref[...] if e in emotions]` (utils.py lines
640-641). -/
def contributingScores (em : List (String × ℚ)) (names : List String) : List ℚ :=
  names.filterMap (fun e => dictGet em e)

/-- `sum(xs) / len(xs or [1])` (utils.py lines 643-644): the safe-divide
average, `0` on an empty list. -/
def safeAvg (l : List ℚ) : ℚ :=
  l.sum / (if l.isEmpty then 1 else (l.length : ℚ))

/-- `classify_dream(emotions)` (utils.py lines 629-650): `None` passes
through, otherwise `"cauchemar"` when the average negative mass strictly
exceeds the average positive mass, else `"rêve"`. -/
def classify_dream (emotions : Option (List (String × ℚ))) (ref : EmotionRef) :
    Option String :=
  match emotions with
  | Option.none => Option.none
  | Option.some em =>
    Option.some
      (if safeAvg (contributingScores em ref.negatif) >
          safeAvg (contributingScores em ref.positif)
       then "cauchemar" else "rêve")

/-- C8: `classify_dream(None)` is `None`; the empty mapping does not raise
and classifies as `"rêve"` (safe-divide convention `safeAvg [] = 0`); in
general the result is `"cauchemar"` exactly when the average negative
emotion mass strictly exceeds the average positive mass, else `"rêve"`
(ties favour `"rêve"`). -/
theorem classify_dream_spec (ref : EmotionRef) (em : List (String × ℚ)) :
    classify_dream Option.none ref = Option.none ∧
    classify_dream (Option.some []) ref = Option.some "rêve" ∧
    safeAvg [] = 0 ∧
    (classify_dream (Option.some em) ref = Option.some "cauchemar" ↔
      safeAvg (contributingScores em ref.negatif) >
        safeAvg (contributingScores em ref.positif)) ∧
    (classify_dream (Option.some em) ref = Option.some "rêve" ↔
      ¬ (safeAvg (contributingScores em ref.negatif) >
          safeAvg (contributingScores em ref.positif))) := by
  have hempty : ∀ names : List String, contributingScores [] names = [] := by
    intro names
    induction names with
    | nil => rfl
    | cons n t ih =>
      simp only [contributingScores, List.filterMap_cons, dictGet] at ih ⊢
      exact ih
  refine ⟨rfl, ?_, by norm_num [safeAvg], ?_, ?_⟩
  · simp [classify_dream, hempty]
  · constructor
    · intro h
      by_contra hnot
      simp [classify_dream, if_neg hnot] at h
    · intro h
      simp [classify_dream, if_pos h]
  · constructor
    · intro h hgt
      simp [classify_dream, if_pos hgt] at h
    · intro h
      simp [classify_dream, if_neg h]

/-! ## Python rounding

Python 3 `round` rounds half to even.  The values rounded in the verified
claims are exactly representable, so the binary-float detour of the source
does not change any result. -/

/-- Python `round(q)`: nearest integer, ties to even. -/
def roundHalfEven (q : ℚ) : ℤ :=
  let f := ⌊q⌋
  let r := q - f
  if r < 1 / 2 then f
  else if r > 1 / 2 then f + 1
  else if f % 2 = 0 then f else f + 1

/-- Python `round(q, 2)`. -/
def pyRound2 (q : ℚ) : ℚ :=
  (roundHalfEven (q * 100) : ℚ) / 100

/-! ## Transcription retry layer — `transcribe_audio` (utils.py lines 363-452)

The primary transport (the Groq client call, one call per loop attempt) and
the secondary HTTPX fallback (`_transcribe_via_httpx`) are dependency
injections: the primary maps an attempt number to its scripted outcome, the
secondary is its scripted final result.  The function returns the
transcription result together with the list of back-off sleeps performed. -/

/-- Outcome of one primary-transport attempt. -/
inductive TResult where
  | success (text : String)
  | failure (errorText : String)
deriving DecidableEq

/-- `TRANSCRIBE_MAX_RETRIES` (utils.py line 205). -/
def TRANSCRIBE_MAX_RETRIES : ℕ := 3

/-- `TRANSCRIBE_BACKOFF_BASE` (utils.py line 206). -/
def TRANSCRIBE_BACKOFF_BASE : ℚ := 1.5

/-- The transient-error keyword list of `_is_retryable_transcription_error`
(utils.py lines 290-308). -/
def TRANSCRIBE_RETRY_KEYWORDS : List String :=
  ["connection error", "connection reset", "connection aborted", "timeout",
   "temporarily unavailable", "service unavailable", "tls", "ssl", "proxy",
   "rate limit", "503", "502", "429"]

/-- `_is_retryable_transcription_error(err)` (utils.py lines 290-308). -/
def is_retryable_transcription_error (e : String) : Bool :=
  TRANSCRIBE_RETRY_KEYWORDS.any (fun k => strContains (pyLower e) k)

/-- The retry loop of utils.py lines 384-432 over the remaining attempt
numbers: success returns immediately with the sleeps performed so far; a
retryable failure with attempts remaining sleeps
`round(TRANSCRIBE_BACKOFF_BASE ** attempt, 2)` and continues; any other
failure breaks out of the loop. -/
def runAttempts (primary : ℕ → TResult) :
    List ℕ → List ℚ → Option String × List ℚ
  | [], sleeps => (Option.none, sleeps)
  | a :: rest, sleeps =>
    match primary a with
    | .success t => (Option.some t, sleeps)
    | .failure e =>
      if is_retryable_transcription_error e = true ∧ a < TRANSCRIBE_MAX_RETRIES then
        runAttempts primary rest
          (sleeps ++ [pyRound2 (TRANSCRIBE_BACKOFF_BASE ^ a)])
      else (Option.none, sleeps)

/-- The attempt numbers `range(1, TRANSCRIBE_MAX_RETRIES + 1)` (utils.py
line 384). -/
def attemptNumbers : List ℕ :=
  (List.range TRANSCRIBE_MAX_RETRIES).map (fun i => i + 1)

/-- `transcribe_audio(audio_data, language)` (utils.py lines 363-452):
missing API key short-circuits to `None` with no attempt; otherwise the
primary transport is retried, and when the loop ends without success the
HTTPX fallback provides the result (`None` when it also fails).  No
exception escapes. -/
def transcribe_audio (apiKeyPresent : Bool) (primary : ℕ → TResult)
    (secondary : Option String) : Option String × List ℚ :=
  if apiKeyPresent = false then (Option.none, [])
  else
    match runAttempts primary attemptNumbers [] with
    | (Option.some t, sleeps) => (Option.some t, sleeps)
    | (Option.none, sleeps) => (secondary, sleeps)

theorem runAttempts_all_fail (primary : ℕ → TResult)
    (hall : ∀ a, ∃ e, primary a = .failure e) :
    ∀ (l : List ℕ) (sleeps : List ℚ),
      (runAttempts primary l sleeps).1 = Option.none := by
  intro l
  induction l with
  | nil => intro sleeps; rfl
  | cons a rest ih =>
    intro sleeps
    obtain ⟨e, he⟩ := hall a
    simp only [runAttempts, he]
    split
    · exact ih _
    · rfl

/-- C6: a scripted primary failing retryably on attempts 1 and 2 and
succeeding on attempt 3 yields the success text after exactly the two
strictly increasing sleeps 1.5 and 2.25; whenever every primary attempt
fails, the result is whatever the secondary HTTPX transport returns (so
`None` when both fail, with no exception escaping); a non-retryable first
failure aborts the loop with no sleep and goes straight to the fallback. -/
theorem transcribe_audio_retry_fallback (primary : ℕ → TResult)
    (secondary : Option String) :
    (∀ t e1 e2, primary 1 = .failure e1 →
       is_retryable_transcription_error e1 = true →
       primary 2 = .failure e2 →
       is_retryable_transcription_error e2 = true →
       primary 3 = .success t →
       transcribe_audio true primary secondary =
         (Option.some t, [3 / 2, 9 / 4]) ∧ ((3 : ℚ) / 2 < 9 / 4)) ∧
    ((∀ a, ∃ e, primary a = .failure e) →
       (transcribe_audio true primary secondary).1 = secondary) ∧
    (∀ e, primary 1 = .failure e →
       is_retryable_transcription_error e = false →
       transcribe_audio true primary secondary = (secondary, [])) := by
  refine ⟨?_, ?_, ?_⟩
  · intro t e1 e2 h1 hr1 h2 hr2 h3
    have hnum : attemptNumbers = [1, 2, 3] := rfl
    have hs1 : pyRound2 (TRANSCRIBE_BACKOFF_BASE ^ 1) = 3 / 2 := by
      norm_num [pyRound2, roundHalfEven, TRANSCRIBE_BACKOFF_BASE]
    have hs2 : pyRound2 (TRANSCRIBE_BACKOFF_BASE ^ 2) = 9 / 4 := by
      norm_num [pyRound2, roundHalfEven, TRANSCRIBE_BACKOFF_BASE]
    refine ⟨?_, by norm_num⟩
    simp only [transcribe_audio, hnum, runAttempts, h1, h2, h3, hr1, hr2,
      hs1, hs2]
    norm_num [TRANSCRIBE_MAX_RETRIES]
  · intro hall
    have hnone := runAttempts_all_fail primary hall attemptNumbers []
    unfold transcribe_audio
    rw [if_neg (by simp)]
    rcases hres : runAttempts primary attemptNumbers [] with ⟨o, sl⟩
    rw [hres] at hnone
    simp only at hnone
    subst hnone
    simp
  · intro e h1 hr
    have hnum : attemptNumbers = [1, 2, 3] := rfl
    simp only [transcribe_audio, hnum, runAttempts, h1, hr]
    simp

/-- Witness for C6: a primary failing with a timeout on attempts 1 and 2
then succeeding, and a primary always failing with `None` secondary. -/
theorem transcribe_audio_retry_fallback_witness :
    transcribe_audio true
        (fun a => if a = 3 then .success "ok" else .failure "timeout")
        Option.none =
      (Option.some "ok", [3 / 2, 9 / 4]) ∧
    (transcribe_audio true (fun _ => .failure "boom") Option.none).1 =
      Option.none ∧
    transcribe_audio true (fun _ => .failure "invalid_api_key")
        (Option.some "fallback text") =
      (Option.some "fallback text", []) := by
  refine ⟨?_, ?_, ?_⟩
  · exact ((transcribe_audio_retry_fallback
      (fun a => if a = 3 then .success "ok" else .failure "timeout")
      Option.none).1 "ok" "timeout" "timeout" (by decide) (by decide)
      (by decide) (by decide) (by decide)).1
  · exact (transcribe_audio_retry_fallback (fun _ => .failure "boom")
      Option.none).2.1 (fun a => ⟨"boom", rfl⟩)
  · exact (transcribe_audio_retry_fallback (fun _ => .failure "invalid_api_key")
      (Option.some "fallback text")).2.2 "invalid_api_key" rfl (by decide)

/-! ## Python `collections.Counter` (insertion-ordered)

`Counter(iterable)` counts left to right, keeping first-encounter key order
(Python 3.7+ dict order), and `most_common` sorts stably by decreasing
count, so a tie is won by the first-encountered key. -/

section Counter

variable {α : Type} [DecidableEq α]

/-- `counts[a] += 1` on an insertion-ordered counter. -/
def bumpKey : List (α × ℕ) → α → List (α × ℕ)
  | [], a => [(a, 1)]
  | (k, n) :: t, a =>
    if k = a then (k, n + 1) :: t else (k, n) :: bumpKey t a

/-- `Counter(l)` as an insertion-ordered association list. -/
def countOccur (l : List α) : List (α × ℕ) :=
  l.foldl bumpKey []

/-- One comparison step of the stable maximum: a later entry wins only with
a strictly greater count. -/
def mcStep (q : α × ℕ) (r : Option (α × ℕ)) : Option (α × ℕ) :=
  match r with
  | Option.none => Option.some q
  | Option.some p2 => if p2.2 > q.2 then Option.some p2 else Option.some q

/-- `Counter.most_common(1)[0]`: the entry with the maximal count, the
earliest such entry on ties (stable descending sort). -/
def mostCommon : List (α × ℕ) → Option (α × ℕ)
  | [] => Option.none
  | q :: t => mcStep q (mostCommon t)

/-- Total count booked for key `x` in a counter. -/
def keyCount (acc : List (α × ℕ)) (x : α) : ℕ :=
  ((acc.filter (fun p => p.1 = x)).map Prod.snd).sum

/-- Number of occurrences of `x` in `l`. -/
def countVal (l : List α) (x : α) : ℕ :=
  (l.filter (fun y => y = x)).length

theorem keyCount_cons (k : α) (n : ℕ) (t : List (α × ℕ)) (x : α) :
    keyCount ((k, n) :: t) x = (if k = x then n else 0) + keyCount t x := by
  by_cases h : k = x <;> simp [keyCount, h]

theorem bumpKey_keyCount (a x : α) :
    ∀ acc : List (α × ℕ),
      keyCount (bumpKey acc a) x = keyCount acc x + (if a = x then 1 else 0) := by
  intro acc
  induction acc with
  | nil => by_cases h : a = x <;> simp [bumpKey, keyCount, h]
  | cons p t ih =>
    obtain ⟨k, n⟩ := p
    by_cases hk : k = a
    · subst hk
      rw [show bumpKey ((k, n) :: t) k = (k, n + 1) :: t from by simp [bumpKey]]
      rw [keyCount_cons, keyCount_cons]
      by_cases hx : k = x <;> simp [hx] <;> omega
    · rw [show bumpKey ((k, n) :: t) a = (k, n) :: bumpKey t a from by
        simp [bumpKey, hk]]
      rw [keyCount_cons, keyCount_cons, ih]
      omega

theorem foldl_bumpKey_keyCount (x : α) :
    ∀ (l : List α) (acc : List (α × ℕ)),
      keyCount (l.foldl bumpKey acc) x = keyCount acc x + countVal l x := by
  intro l
  induction l with
  | nil => intro acc; simp [countVal]
  | cons a t ih =>
    intro acc
    rw [List.foldl_cons, ih (bumpKey acc a), bumpKey_keyCount a x acc]
    have hc : countVal (a :: t) x = (if a = x then 1 else 0) + countVal t x := by
      by_cases h : a = x
      · simp [countVal, h]
        omega
      · simp [countVal, h]
    omega

theorem countOccur_keyCount (l : List α) (x : α) :
    keyCount (countOccur l) x = countVal l x := by
  have := foldl_bumpKey_keyCount x l []
  simpa [countOccur, keyCount] using this

theorem bumpKey_fst (a : α) :
    ∀ acc : List (α × ℕ),
      (bumpKey acc a).map Prod.fst =
        if a ∈ acc.map Prod.fst then acc.map Prod.fst
        else acc.map Prod.fst ++ [a] := by
  intro acc
  induction acc with
  | nil => simp [bumpKey]
  | cons p t ih =>
    obtain ⟨k, n⟩ := p
    by_cases hk : k = a
    · subst hk
      simp [bumpKey]
    · rw [show bumpKey ((k, n) :: t) a = (k, n) :: bumpKey t a from by
        simp [bumpKey, hk]]
      have hne : ¬ a = k := fun h => hk h.symm
      by_cases hm : a ∈ t.map Prod.fst
      · simp [ih, hm, hne]
      · simp [ih, hm, hne]

theorem bumpKey_nodup_fst (a : α) (acc : List (α × ℕ))
    (h : (acc.map Prod.fst).Nodup) : ((bumpKey acc a).map Prod.fst).Nodup := by
  rw [bumpKey_fst]
  by_cases hm : a ∈ acc.map Prod.fst
  · rw [if_pos hm]
    exact h
  · rw [if_neg hm, List.nodup_append]
    refine ⟨h, List.nodup_singleton a, ?_⟩
    intro x hx hxa
    rw [List.mem_singleton] at hxa
    subst hxa
    exact hm hx

theorem countOccur_nodup_fst (l : List α) :
    ((countOccur l).map Prod.fst).Nodup := by
  have : ∀ (t : List α) (acc : List (α × ℕ)), (acc.map Prod.fst).Nodup →
      ((t.foldl bumpKey acc).map Prod.fst).Nodup := by
    intro t
    induction t with
    | nil => intro acc h; simpa using h
    | cons a r ih =>
      intro acc h
      rw [List.foldl_cons]
      exact ih (bumpKey acc a) (bumpKey_nodup_fst a acc h)
  simpa [countOccur] using this l [] (by simp)

theorem keyCount_eq_zero (x : α) :
    ∀ t : List (α × ℕ), x ∉ t.map Prod.fst → keyCount t x = 0 := by
  intro t
  induction t with
  | nil => intro _; rfl
  | cons p r ih =>
    intro h
    obtain ⟨k, n⟩ := p
    simp only [List.map_cons, List.mem_cons] at h
    push_neg at h
    rw [keyCount_cons, ih h.2]
    have : ¬ k = x := fun he => h.1 he.symm
    simp [this]

theorem keyCount_of_mem :
    ∀ (cnt : List (α × ℕ)), ((cnt.map Prod.fst).Nodup) →
      ∀ p ∈ cnt, keyCount cnt p.1 = p.2 := by
  intro cnt
  induction cnt with
  | nil => intro _ p hp; simp at hp
  | cons q t ih =>
    intro hnd p hp
    obtain ⟨k, n⟩ := q
    simp only [List.map_cons, List.nodup_cons] at hnd
    rcases List.mem_cons.mp hp with h1 | h2
    · subst h1
      show keyCount ((k, n) :: t) k = n
      rw [keyCount_cons]
      have hz : keyCount t k = 0 := keyCount_eq_zero k t hnd.1
      simp [hz]
    · have hk : ¬ k = p.1 := by
        intro he
        exact hnd.1 (he ▸ (List.mem_map_of_mem Prod.fst h2))
      rw [keyCount_cons, ih hnd.2 p h2]
      simp [hk]

theorem mcStep_ne_none (q : α × ℕ) (r : Option (α × ℕ)) :
    mcStep q r ≠ Option.none := by
  cases r with
  | none => simp [mcStep]
  | some p2 =>
    by_cases h : p2.2 > q.2 <;> simp [mcStep, h]

theorem mostCommon_spec :
    ∀ (cnt : List (α × ℕ)) (e : α) (c : ℕ),
      mostCommon cnt = Option.some (e, c) →
      (e, c) ∈ cnt ∧ ∀ p ∈ cnt, p.2 ≤ c := by
  intro cnt
  induction cnt with
  | nil => intro e c h; simp [mostCommon] at h
  | cons q t ih =>
    intro e c h
    rw [mostCommon] at h
    rcases hmt : mostCommon t with _ | p2
    · rw [hmt] at h
      simp only [mcStep] at h
      have hq : q = (e, c) := Option.some.inj h
      have ht : t = [] := by
        cases t with
        | nil => rfl
        | cons b bs =>
          rw [mostCommon] at hmt
          exact absurd hmt (mcStep_ne_none b (mostCommon bs))
      subst hq
      subst ht
      refine ⟨List.mem_cons_self _ _, ?_⟩
      intro p hp
      rcases List.mem_cons.mp hp with h1 | h2
      · subst h1; exact le_refl _
      · simp at h2
    · rw [hmt] at h
      simp only [mcStep] at h
      by_cases hgt : p2.2 > q.2
      · rw [if_pos hgt] at h
        have hp2 : p2 = (e, c) := Option.some.inj h
        subst hp2
        obtain ⟨hmem2, hall2⟩ := ih e c hmt
        refine ⟨List.mem_cons_of_mem _ hmem2, ?_⟩
        intro p hp
        rcases List.mem_cons.mp hp with h1 | h2
        · subst h1
          exact le_of_lt (by simpa using hgt)
        · exact hall2 p h2
      · rw [if_neg hgt] at h
        have hq : q = (e, c) := Option.some.inj h
        obtain ⟨k2, n2⟩ := p2
        obtain ⟨hmem2, hall2⟩ := ih k2 n2 hmt
        subst hq
        refine ⟨List.mem_cons_self _ _, ?_⟩
        intro p hp
        rcases List.mem_cons.mp hp with h1 | h2
        · subst h1; exact le_refl _
        · refine le_trans (hall2 p h2) ?_
          simp only [not_lt] at hgt
          simpa using hgt

theorem mostCommon_isSome (cnt : List (α × ℕ)) (h : cnt ≠ []) :
    ∃ e c, mostCommon cnt = Option.some (e, c) := by
  cases cnt with
  | nil => exact absurd rfl h
  | cons q t =>
    rw [mostCommon]
    rcases hr : mcStep q (mostCommon t) with _ | ⟨k2, n2⟩
    · exact absurd hr (mcStep_ne_none q (mostCommon t))
    · exact ⟨k2, n2, rfl⟩

theorem bumpKey_ne_nil (acc : List (α × ℕ)) (a : α) : bumpKey acc a ≠ [] := by
  cases acc with
  | nil => simp [bumpKey]
  | cons p t =>
    obtain ⟨k, n⟩ := p
    by_cases hk : k = a <;> simp [bumpKey, hk]

theorem countOccur_ne_nil (l : List α) (h : l ≠ []) : countOccur l ≠ [] := by
  have hfold : ∀ (t : List α) (acc : List (α × ℕ)), acc ≠ [] →
      t.foldl bumpKey acc ≠ [] := by
    intro t
    induction t with
    | nil => intro acc h2; simpa using h2
    | cons a r ih =>
      intro acc _
      rw [List.foldl_cons]
      exact ih (bumpKey acc a) (bumpKey_ne_nil acc a)
  cases l with
  | nil => exact absurd rfl h
  | cons a t =>
    rw [countOccur, List.foldl_cons]
    exact hfold t (bumpKey [] a) (bumpKey_ne_nil [] a)

/-- The maximal entry of `Counter(l).most_common(1)` counts the actual
occurrences of its key, and no value occurs more often. -/
theorem mostCommon_countOccur (l : List α) (e : α) (c : ℕ)
    (h : mostCommon (countOccur l) = Option.some (e, c)) :
    c = countVal l e ∧ ∀ x, countVal l x ≤ c := by
  obtain ⟨hmem, hall⟩ := mostCommon_spec (countOccur l) e c h
  have hnd := countOccur_nodup_fst l
  have hc : keyCount (countOccur l) e = c := keyCount_of_mem (countOccur l) hnd (e, c) hmem
  constructor
  · rw [← countOccur_keyCount l e, hc]
  · intro x
    rw [← countOccur_keyCount l x]
    by_cases hm : x ∈ (countOccur l).map Prod.fst
    · obtain ⟨p, hp, hpx⟩ := List.mem_map.mp hm
      have := keyCount_of_mem (countOccur l) hnd p hp
      rw [hpx] at this
      rw [this]
      exact hall p hp
    · rw [keyCount_eq_zero x (countOccur l) hm]
      exact Nat.zero_le c

end Counter

/-! ## Profile aggregator — `get_profil_onirique_stats(user)`
(utils.py lines 941-998)

A stored dream row enters the aggregation through its `dream_type` and its
(nullable) `dominant_emotion`.  The theme analysis
(`analyze_recurring_themes`, a separate spaCy-based component) only
contributes its `top_theme` / `percentage` outputs, passed as parameters. -/

/-- The two columns of a stored dream row that the aggregator reads. -/
structure StatRow where
  dream_type : String
  dominant_emotion : Option String
deriving DecidableEq

/-- The dict returned by `get_profil_onirique_stats`.  `emotion_dominante`
is `Option String` because the aggregated `dominant_emotion` values are
nullable and `Counter.most_common` can elect the null. -/
structure ProfilStats where
  statut_reveuse : String
  pourcentage_reveuse : ℤ
  label_reveuse : String
  emotion_dominante : Option String
  emotion_dominante_percentage : ℤ
  thematique_recurrente : String
  thematique_percentage : ℚ
deriving DecidableEq

/-- `get_profil_onirique_stats(user)` (utils.py lines 941-998): the
zero-dream fixed structure, else the majority dream-type (ties favour
`"rêve"` via `nb_reves >= nb_cauchemars`) with `round(count/total*100)`,
the most frequent `dominant_emotion` via `Counter(...).most_common(1)[0]`
with its rounded percentage of total, and the theme analysis passthrough. -/
def get_profil_onirique_stats (dreams : List StatRow) (themeTop : String)
    (themePct : ℚ) : ProfilStats :=
  let total := dreams.length
  if total = 0 then
    { statut_reveuse := "silence onirique"
      pourcentage_reveuse := 0
      label_reveuse := "rêves enregistrés"
      emotion_dominante := Option.some "émotion endormie"
      emotion_dominante_percentage := 0
      thematique_recurrente := "Pas encore de données"
      thematique_percentage := 0 }
  else
    let nb_reves := (dreams.filter (fun d => d.dream_type = "rêve")).length
    let nb_cauchemars :=
      (dreams.filter (fun d => d.dream_type = "cauchemar")).length
    let s :=
      if nb_reves ≥ nb_cauchemars then
        ("âme rêveuse", roundHalfEven ((nb_reves : ℚ) / (total : ℚ) * 100),
         "rêves")
      else
        ("en proie aux cauchemars",
         roundHalfEven ((nb_cauchemars : ℚ) / (total : ℚ) * 100), "cauchemars")
    let emotion_counts := countOccur (dreams.map (fun d => d.dominant_emotion))
    match mostCommon emotion_counts with
    | Option.some (e, c) =>
      { statut_reveuse := s.1
        pourcentage_reveuse := s.2.1
        label_reveuse := s.2.2
        emotion_dominante := e
        emotion_dominante_percentage :=
          roundHalfEven ((c : ℚ) / (total : ℚ) * 100)
        thematique_recurrente := themeTop
        thematique_percentage := themePct }
    | Option.none =>
      { statut_reveuse := s.1
        pourcentage_reveuse := s.2.1
        label_reveuse := s.2.2
        emotion_dominante := Option.some "émotion endormie"
        emotion_dominante_percentage := 0
        thematique_recurrente := themeTop
        thematique_percentage := themePct }

/-- C9: the profile aggregator is a total function (never raises); with
zero dreams it returns the fixed "no data yet" structure with percentage 0;
with dreams present it reports the majority dream-type (ties favour
`"rêve"`) with percentage `round(count/n*100)`, and the most frequent
`dominant_emotion` value — its count is the exact occurrence count, no
value occurs more often, and ties go to the first-encountered key by the
`mostCommon`/`countOccur` construction — with its rounded percentage. -/
theorem get_profil_stats_spec :
    (∀ (t : String) (p : ℚ), get_profil_onirique_stats [] t p =
      { statut_reveuse := "silence onirique"
        pourcentage_reveuse := 0
        label_reveuse := "rêves enregistrés"
        emotion_dominante := Option.some "émotion endormie"
        emotion_dominante_percentage := 0
        thematique_recurrente := "Pas encore de données"
        thematique_percentage := 0 }) ∧
    (∀ (dreams : List StatRow) (t : String) (p : ℚ), dreams ≠ [] →
      (((dreams.filter (fun d => d.dream_type = "rêve")).length ≥
          (dreams.filter (fun d => d.dream_type = "cauchemar")).length →
        (get_profil_onirique_stats dreams t p).statut_reveuse = "âme rêveuse" ∧
        (get_profil_onirique_stats dreams t p).label_reveuse = "rêves" ∧
        (get_profil_onirique_stats dreams t p).pourcentage_reveuse =
          roundHalfEven
            (((dreams.filter (fun d => d.dream_type = "rêve")).length : ℚ) /
              (dreams.length : ℚ) * 100)) ∧
      ((dreams.filter (fun d => d.dream_type = "rêve")).length <
          (dreams.filter (fun d => d.dream_type = "cauchemar")).length →
        (get_profil_onirique_stats dreams t p).statut_reveuse =
          "en proie aux cauchemars" ∧
        (get_profil_onirique_stats dreams t p).label_reveuse = "cauchemars" ∧
        (get_profil_onirique_stats dreams t p).pourcentage_reveuse =
          roundHalfEven
            (((dreams.filter
                (fun d => d.dream_type = "cauchemar")).length : ℚ) /
              (dreams.length : ℚ) * 100)) ∧
      (∃ e c,
        mostCommon (countOccur (dreams.map (fun d => d.dominant_emotion))) =
          Option.some (e, c) ∧
        (get_profil_onirique_stats dreams t p).emotion_dominante = e ∧
        (get_profil_onirique_stats dreams t p).emotion_dominante_percentage =
          roundHalfEven ((c : ℚ) / (dreams.length : ℚ) * 100) ∧
        c = countVal (dreams.map (fun d => d.dominant_emotion)) e ∧
        (∀ x, countVal (dreams.map (fun d => d.dominant_emotion)) x ≤ c)))) := by
  constructor
  · intro t p
    rfl
  · intro dreams t p hne
    have h0 : ¬ dreams.length = 0 := by
      simpa [List.length_eq_zero] using hne
    have hemos : dreams.map (fun d => d.dominant_emotion) ≠ [] := by
      simpa using hne
    obtain ⟨e, c, hmc⟩ := mostCommon_isSome _
      (countOccur_ne_nil (dreams.map (fun d => d.dominant_emotion)) hemos)
    obtain ⟨hcv, hmax⟩ := mostCommon_countOccur _ e c hmc
    refine ⟨?_, ?_, e, c, hmc, ?_, ?_, hcv, hmax⟩
    · intro hge
      simp only [get_profil_onirique_stats, if_neg h0, hmc, if_pos hge]
      simp
    · intro hlt
      have hnge : ¬ ((dreams.filter (fun d => d.dream_type = "rêve")).length ≥
          (dreams.filter (fun d => d.dream_type = "cauchemar")).length) :=
        not_le.mpr hlt
      simp only [get_profil_onirique_stats, if_neg h0, hmc, if_neg hnge]
      simp
    · simp only [get_profil_onirique_stats, if_neg h0, hmc]
    · simp only [get_profil_onirique_stats, if_neg h0, hmc]

theorem roundHalfEven_intCast (z : ℤ) : roundHalfEven (z : ℚ) = z := by
  unfold roundHalfEven
  rw [Int.floor_intCast]
  norm_num

/-- Witness for C9, the two spec examples in one record set: dream_type
counts \x7brêve: 3, cauchemar: 1\x7d give the 75% "âme rêveuse" status, and
dominant emotions [joie, joie, triste, peur] give "joie" at 50%. -/
theorem get_profil_stats_spec_witness :
    (get_profil_onirique_stats
        [⟨"rêve", Option.some "joie"⟩, ⟨"rêve", Option.some "joie"⟩,
         ⟨"rêve", Option.some "triste"⟩, ⟨"cauchemar", Option.some "peur"⟩]
        "X" 0).statut_reveuse = "âme rêveuse" ∧
    (get_profil_onirique_stats
        [⟨"rêve", Option.some "joie"⟩, ⟨"rêve", Option.some "joie"⟩,
         ⟨"rêve", Option.some "triste"⟩, ⟨"cauchemar", Option.some "peur"⟩]
        "X" 0).pourcentage_reveuse = 75 ∧
    (get_profil_onirique_stats
        [⟨"rêve", Option.some "joie"⟩, ⟨"rêve", Option.some "joie"⟩,
         ⟨"rêve", Option.some "triste"⟩, ⟨"cauchemar", Option.some "peur"⟩]
        "X" 0).emotion_dominante = Option.some "joie" ∧
    (get_profil_onirique_stats
        [⟨"rêve", Option.some "joie"⟩, ⟨"rêve", Option.some "joie"⟩,
         ⟨"rêve", Option.some "triste"⟩, ⟨"cauchemar", Option.some "peur"⟩]
        "X" 0).emotion_dominante_percentage = 50 := by
  have hmain := get_profil_stats_spec.2
    [⟨"rêve", Option.some "joie"⟩, ⟨"rêve", Option.some "joie"⟩,
     ⟨"rêve", Option.some "triste"⟩, ⟨"cauchemar", Option.some "peur"⟩]
    "X" 0 (by decide)
  have h := hmain.1 (by decide)
  obtain ⟨e, c, hmc, hed, hpct, _, _⟩ := hmain.2.2
  have hval : mostCommon (countOccur
      (([⟨"rêve", Option.some "joie"⟩, ⟨"rêve", Option.some "joie"⟩,
         ⟨"rêve", Option.some "triste"⟩,
         ⟨"cauchemar", Option.some "peur"⟩] : List StatRow).map
        (fun d => d.dominant_emotion))) =
      Option.some (Option.some "joie", 2) := by decide
  rw [hval] at hmc
  have hec := Option.some.inj hmc
  have he : e = Option.some "joie" := congrArg Prod.fst hec.symm
  have hc : c = 2 := congrArg Prod.snd hec.symm
  have hl1 : (([⟨"rêve", Option.some "joie"⟩, ⟨"rêve", Option.some "joie"⟩,
      ⟨"rêve", Option.some "triste"⟩,
      ⟨"cauchemar", Option.some "peur"⟩] : List StatRow).filter
        (fun d => d.dream_type = "rêve")).length = 3 := by decide
  have hl2 : ([⟨"rêve", Option.some "joie"⟩, ⟨"rêve", Option.some "joie"⟩,
      ⟨"rêve", Option.some "triste"⟩,
      ⟨"cauchemar", Option.some "peur"⟩] : List StatRow).length = 4 := rfl
  refine ⟨h.1, ?_, ?_, ?_⟩
  · rw [h.2.2, hl1, hl2]
    have hq : ((3 : ℕ) : ℚ) / ((4 : ℕ) : ℚ) * 100 = ((75 : ℤ) : ℚ) := by
      norm_num
    rw [hq, roundHalfEven_intCast]
  · rw [hed, he]
  · rw [hpct, hc, hl2]
    have hq : ((2 : ℕ) : ℚ) / ((4 : ℕ) : ℚ) * 100 = ((50 : ℤ) : ℚ) := by
      norm_num
    rw [hq, roundHalfEven_intCast]

/-! ## Dashboard date filtering — `get_date_filter_queryset`
(utils.py lines 1004-1050)

`datetime.strptime(s, "%Y-%m-%d")` accepts exactly four year digits and one
or two month/day digits separated by dashes, then `date()` validates the
calendar day (including leap years); any other string raises `ValueError`,
which the source catches to fall through to the named-period filter.
Timestamps are epoch seconds (`ℤ`); `created_at__date__range` compares
civil dates, modelled through day numbers. -/

/-- Decimal digits to a number (parts are pre-checked to be digits). -/
def digitsToNat (l : List Char) : ℕ :=
  l.foldl (fun acc c => acc * 10 + (c.toNat - 48)) 0

/-- Split a character list on the dash separator. -/
def splitOnDash : List Char → List (List Char)
  | [] => [[]]
  | c :: t =>
    match splitOnDash t with
    | [] => [[]]
    | g :: gs => if c = Char.ofNat 45 then [] :: g :: gs else (c :: g) :: gs

/-- Gregorian leap year (`datetime` calendar). -/
def isLeapYear (y : ℕ) : Bool :=
  (y % 4 = 0 && y % 100 ≠ 0) || y % 400 = 0

/-- Days in a month of the proleptic Gregorian calendar. -/
def daysInMonth (y m : ℕ) : ℕ :=
  if m = 2 then (if isLeapYear y then 29 else 28)
  else if m = 4 ∨ m = 6 ∨ m = 9 ∨ m = 11 then 30
  else 31

/-- `datetime.strptime(s, "%Y-%m-%d").date()`: `None` models the
`ValueError` that the source catches. -/
def parseYmd (s : String) : Option (ℕ × ℕ × ℕ) :=
  match splitOnDash s.data with
  | [ys, ms, ds] =>
    if ys.length = 4 ∧ ys.all Char.isDigit ∧
       1 ≤ ms.length ∧ ms.length ≤ 2 ∧ ms.all Char.isDigit ∧
       1 ≤ ds.length ∧ ds.length ≤ 2 ∧ ds.all Char.isDigit then
      let y := digitsToNat ys
      let m := digitsToNat ms
      let d := digitsToNat ds
      if 1 ≤ y ∧ 1 ≤ m ∧ m ≤ 12 ∧ 1 ≤ d ∧ d ≤ daysInMonth y m then
        Option.some (y, m, d)
      else Option.none
    else Option.none
  | _ => Option.none

/-- Day number of a civil date (days since 1970-01-01, Hinnant's
`days_from_civil`). -/
def daysFromCivil (y m d : ℕ) : ℤ :=
  let yAdj : ℤ := if m ≤ 2 then (y : ℤ) - 1 else (y : ℤ)
  let era := Int.fdiv yAdj 400
  let yoe := yAdj - era * 400
  let mp := ((m : ℤ) + 9) % 12
  let doy := Int.fdiv (153 * mp + 2) 5 + (d : ℤ) - 1
  let doe := yoe * 365 + Int.fdiv yoe 4 - Int.fdiv yoe 100 + doy
  era * 146097 + doe - 719468

/-- Civil day number of an epoch-seconds timestamp. -/
def dayOfTimestamp (ts : ℤ) : ℤ :=
  Int.fdiv ts 86400

/-- A stored dream row as seen by the date filter: its `created_at`
timestamp in epoch seconds. -/
structure TDream where
  created_at : ℤ
deriving DecidableEq

/-- `get_date_filter_queryset(user, period, start_date, end_date)`
(utils.py lines 1004-1050): when both custom dates are supplied (truthy)
and parse, filter `created_at__date__range=[start, end]` and return; a
parse failure falls through to the named-period filter; the period filter
keeps rows with `created_at >= now - timedelta(days=N)` for the four named
periods and applies no filter otherwise. -/
def get_date_filter_queryset (dreams : List TDream) (now : ℤ)
    (period : Option String) (start_date end_date : Option String) :
    List TDream :=
  let custom :=
    match start_date, end_date with
    | Option.some s, Option.some e =>
      if s ≠ "" ∧ e ≠ "" then
        match parseYmd s, parseYmd e with
        | Option.some ps, Option.some pe =>
          Option.some (dreams.filter (fun d =>
            daysFromCivil ps.1 ps.2.1 ps.2.2 ≤ dayOfTimestamp d.created_at ∧
            dayOfTimestamp d.created_at ≤ daysFromCivil pe.1 pe.2.1 pe.2.2))
        | _, _ => Option.none
      else Option.none
    | _, _ => Option.none
  match custom with
  | Option.some q => q
  | Option.none =>
    if period = Option.some "month" then
      dreams.filter (fun d => now - 30 * 86400 ≤ d.created_at)
    else if period = Option.some "3months" then
      dreams.filter (fun d => now - 90 * 86400 ≤ d.created_at)
    else if period = Option.some "6months" then
      dreams.filter (fun d => now - 180 * 86400 ≤ d.created_at)
    else if period = Option.some "1year" then
      dreams.filter (fun d => now - 365 * 86400 ≤ d.created_at)
    else dreams

/-- C10: when either explicit date string is not a valid `YYYY-MM-DD` date,
the filter does not raise (it is total) and silently ignores the explicit
range: the result is exactly what the same call without custom dates
produces (the named-period filter, or no filter). -/
theorem get_date_filter_invalid_dates_fall_back (dreams : List TDream)
    (now : ℤ) (period : Option String) (s e : String)
    (h : parseYmd s = Option.none ∨ parseYmd e = Option.none) :
    get_date_filter_queryset dreams now period (Option.some s) (Option.some e) =
      get_date_filter_queryset dreams now period Option.none Option.none := by
  unfold get_date_filter_queryset
  by_cases hse : s ≠ "" ∧ e ≠ ""
  · rcases h with h | h
    · rcases hpe : parseYmd e with _ | pe <;> simp [hse, h, hpe]
    · rcases hps : parseYmd s with _ | ps <;> simp [hse, h, hps]
  · simp [hse]

/-- Witness for C10: 2023-02-29 does not exist (2023 is not a leap year),
so the custom range is ignored and the 30-day period filter applies as if
no dates were given. -/
theorem get_date_filter_invalid_dates_fall_back_witness :
    get_date_filter_queryset [⟨1000⟩] 0 (Option.some "month")
        (Option.some "2023-02-29") (Option.some "2024-01-15") =
      get_date_filter_queryset [⟨1000⟩] 0 (Option.some "month")
        Option.none Option.none :=
  get_date_filter_invalid_dates_fall_back [⟨1000⟩] 0 (Option.some "month")
    "2023-02-29" "2024-01-15" (Or.inl (by decide))

/-! ## Submission pipeline — `analyse_from_voice` (views.py lines 100-210)

The SSE generator is modelled as a pure function from the scripted results
of its stage collaborators (`transcribe_audio`, `analyze_emotions`,
`generate_image_from_text`, `interpret_dream`) to the emitted event list,
the sequence of persisted database states of the dream row (each
`create`/`save` in order), and the finally surviving row (`None` after a
compensating `delete`). -/

/-- `EMOTION_LABELS` (constants.py). -/
def EMOTION_LABELS : List (String × String) :=
  [("heureux", "Joie"), ("anxieux", "Anxiété"), ("triste", "Tristesse"),
   ("en_colere", "Colère"), ("fatigue", "Fatigue"), ("apeure", "Peur"),
   ("surpris", "Surprise"), ("serein", "Sérénité")]

/-- `DREAM_TYPE_LABELS` (constants.py). -/
def DREAM_TYPE_LABELS : List (String × String) :=
  [("rêve", "Rêve"), ("cauchemar", "Cauchemar")]

/-- `DREAM_ERROR_MESSAGE` (constants.py), the single centralized
user-facing error string. -/
def DREAM_ERROR_MESSAGE : String :=
  "Les fils de votre rêve se sont emmêlés... Laissez-moi démêler ce songe et tentez une nouvelle analyse."

/-- Python `str.capitalize()` (ASCII model). -/
def pyCapitalize (s : String) : String :=
  match s.data with
  | [] => ""
  | c :: t => ⟨Char.toUpper c :: t.map Char.toLower⟩

/-- Modelled from the spec: `format_emotion_label`, the Label Normalizer
imported by views.py from utils but absent from src/ — a lookup in
`EMOTION_LABELS` with a graceful capitalize fallback for unknown keys
(mirroring the inline `EMOTION_LABELS.get(emotion, emotion.capitalize())`
of views.py line 242). -/
def format_emotion_label (k : String) : String :=
  (dictGet EMOTION_LABELS k).getD (pyCapitalize k)

/-- Modelled from the spec: `format_dream_type_label`, same Label
Normalizer for dream types (mirroring `DREAM_TYPE_LABELS.get(...)` of
views.py lines 47-49). -/
def format_dream_type_label (k : String) : String :=
  (dictGet DREAM_TYPE_LABELS k).getD (pyCapitalize k)

/-- One server-sent event of the `analyse_from_voice` stream. -/
inductive SseEvent where
  | transcriptionStep (text : String)
  | emotionsStep (dominantLabel : String) (dreamTypeLabel : String)
  | imageStep (imagePath : Option String)
  | interpretationStep (interp : List (String × PyVal))
  | completeStep
  | errorStep (message : String)

/-- The persisted columns of a `Dream` row touched by the pipeline
(models.py lines 7-58). -/
structure DreamState where
  transcription : String
  emotions : List (String × ℚ)
  dominant_emotion : Option String
  dream_type : Option String
  interpretation : List (String × PyVal)
  image : Option String
  is_analyzed : Bool

/-- `is_analyzed = models.BooleanField(default=False, ...)` (models.py
lines 52-56). -/
def dreamDefaultIsAnalyzed : Bool := false

/-- `dream_type = models.CharField(..., default='rêve', ...)` (models.py
lines 30-35). -/
def dreamDefaultDreamType : String := "rêve"

/-- Result of one pipeline run: emitted events, every database write in
order, and the finally surviving row. -/
structure PipelineRun where
  events : List SseEvent
  persisted : List DreamState
  finalDb : Option DreamState

/-- `analyse_from_voice` / `event_stream` (views.py lines 100-210):
transcription or emotion failure aborts with the centralized error before
any write; otherwise the row is created with `is_analyzed=True` and an
empty interpretation; image generation failure is non-fatal (event with a
null path, no write); interpretation failure deletes the row and emits the
centralized error; success saves the interpretation and completes. -/
def analyse_from_voice (audioProvided : Bool) (tr : Option String)
    (emo : Option (List (String × ℚ) × (String × ℚ))) (ref : EmotionRef)
    (imageSuccess : Bool) (imageStored : Option String)
    (interp : Option (List (String × PyVal))) : PipelineRun :=
  if audioProvided = false then
    ⟨[.errorStep DREAM_ERROR_MESSAGE], [], Option.none⟩
  else
    match tr with
    | Option.none => ⟨[.errorStep DREAM_ERROR_MESSAGE], [], Option.none⟩
    | Option.some t =>
      if t = "" then ⟨[.errorStep DREAM_ERROR_MESSAGE], [], Option.none⟩
      else
        match emo with
        | Option.none =>
          ⟨[.transcriptionStep t, .errorStep DREAM_ERROR_MESSAGE], [],
           Option.none⟩
        | Option.some (scores, dominant) =>
          let dream_type := classify_dream (Option.some scores) ref
          let dtLabel :=
            match dream_type with
            | Option.some c => format_dream_type_label c
            | Option.none => ""
          let rec0 : DreamState :=
            { transcription := t
              emotions := scores
              dominant_emotion := Option.some dominant.1
              dream_type := dream_type
              interpretation := []
              image := Option.none
              is_analyzed := true }
          let baseEvents := [SseEvent.transcriptionStep t,
            SseEvent.emotionsStep (format_emotion_label dominant.1) dtLabel]
          let rec1 :=
            if imageSuccess then
              { rec0 with image := imageStored }
            else rec0
          let persisted1 := if imageSuccess then [rec0, rec1] else [rec0]
          let imgPath : Option String :=
            if imageSuccess then
              match imageStored with
              | Option.some u => if u = "" then Option.none else Option.some u
              | Option.none => Option.none
            else Option.none
          let events1 := baseEvents ++ [SseEvent.imageStep imgPath]
          match interp with
          | Option.none =>
            ⟨events1 ++ [SseEvent.errorStep DREAM_ERROR_MESSAGE], persisted1,
             Option.none⟩
          | Option.some iv =>
            let rec2 := { rec1 with interpretation := iv }
            ⟨events1 ++ [SseEvent.interpretationStep iv, SseEvent.completeStep],
             persisted1 ++ [rec2], Option.some rec2⟩

/-- C4: once the row is created, interpretation failure deletes it (a write
happened, no row survives) and the stream ends with the centralized error
message; image-generation failure is the sole non-fatal stage — the run
completes without an image and emits no error event; and every error event
of any run carries the single centralized message. -/
theorem pipeline_failure_handling :
    (∀ (t : String) (emo : List (String × ℚ) × (String × ℚ)) (ref : EmotionRef)
       (imgS : Bool) (imgV : Option String), t ≠ "" →
       (analyse_from_voice true (Option.some t) (Option.some emo) ref imgS imgV
           Option.none).finalDb = Option.none ∧
       (analyse_from_voice true (Option.some t) (Option.some emo) ref imgS imgV
           Option.none).persisted ≠ [] ∧
       (analyse_from_voice true (Option.some t) (Option.some emo) ref imgS imgV
           Option.none).events.getLast? =
         Option.some (SseEvent.errorStep DREAM_ERROR_MESSAGE)) ∧
    (∀ (t : String) (emo : List (String × ℚ) × (String × ℚ)) (ref : EmotionRef)
       (imgV : Option String) (iv : List (String × PyVal)), t ≠ "" →
       ∃ d, (analyse_from_voice true (Option.some t) (Option.some emo) ref false
           imgV (Option.some iv)).finalDb = Option.some d ∧
         d.interpretation = iv ∧ d.image = Option.none ∧
         (analyse_from_voice true (Option.some t) (Option.some emo) ref false
             imgV (Option.some iv)).events.getLast? =
           Option.some SseEvent.completeStep ∧
         SseEvent.imageStep Option.none ∈
           (analyse_from_voice true (Option.some t) (Option.some emo) ref false
               imgV (Option.some iv)).events ∧
         (∀ m, SseEvent.errorStep m ∈
             (analyse_from_voice true (Option.some t) (Option.some emo) ref
                 false imgV (Option.some iv)).events → False)) ∧
    (∀ (audio : Bool) (tr : Option String)
       (emo : Option (List (String × ℚ) × (String × ℚ))) (ref : EmotionRef)
       (imgS : Bool) (imgV : Option String)
       (interp : Option (List (String × PyVal))) (m : String),
       SseEvent.errorStep m ∈
         (analyse_from_voice audio tr emo ref imgS imgV interp).events →
       m = DREAM_ERROR_MESSAGE) := by
  refine ⟨?_, ?_, ?_⟩
  · intro t emo ref imgS imgV ht
    obtain ⟨scores, dominant⟩ := emo
    cases imgS <;>
      simp [analyse_from_voice, ht, List.getLast?_cons_cons,
        List.getLast?_singleton]
  · intro t emo ref imgV iv ht
    obtain ⟨scores, dominant⟩ := emo
    refine ⟨{ transcription := t
              emotions := scores
              dominant_emotion := Option.some dominant.1
              dream_type := classify_dream (Option.some scores) ref
              interpretation := iv
              image := Option.none
              is_analyzed := true }, ?_, rfl, rfl, ?_, ?_, ?_⟩
    · simp [analyse_from_voice, ht]
    · simp [analyse_from_voice, ht, List.getLast?_cons_cons,
        List.getLast?_singleton]
    · simp [analyse_from_voice, ht]
    · intro m hm
      simp [analyse_from_voice, ht] at hm
  · intro audio tr emo ref imgS imgV interp m hm
    cases audio with
    | false =>
      simp [analyse_from_voice] at hm
      exact hm
    | true =>
      cases tr with
      | none =>
        simp [analyse_from_voice] at hm
        exact hm
      | some t =>
        by_cases ht : t = ""
        · simp [analyse_from_voice, ht] at hm
          exact hm
        · cases emo with
          | none =>
            simp [analyse_from_voice, ht] at hm
            exact hm
          | some sd =>
            obtain ⟨scores, dominant⟩ := sd
            cases interp with
            | none =>
              simp [analyse_from_voice, ht] at hm
              exact hm
            | some iv =>
              simp [analyse_from_voice, ht] at hm

/-- Witness for C4: with scripted stages, a failed interpretation leaves no
row, and a failed image generation still ends in `completeStep`. -/
theorem pipeline_failure_handling_witness :
    (analyse_from_voice true (Option.some "t")
        (Option.some ([("joie", (1 : ℚ))], ("joie", 1))) ⟨[], []⟩ false
        Option.none Option.none).finalDb = Option.none ∧
    (analyse_from_voice true (Option.some "t")
        (Option.some ([("joie", (1 : ℚ))], ("joie", 1))) ⟨[], []⟩ false
        Option.none
        (Option.some [("Émotionnelle", PyVal.str "ok")])).events.getLast? =
      Option.some SseEvent.completeStep := by
  constructor
  · exact (pipeline_failure_handling.1 "t" ([("joie", (1 : ℚ))], ("joie", 1))
      ⟨[], []⟩ false Option.none (by decide)).1
  · obtain ⟨d, _, _, _, hlast, _, _⟩ := pipeline_failure_handling.2.1 "t"
      ([("joie", (1 : ℚ))], ("joie", 1)) ⟨[], []⟩ Option.none
      [("Émotionnelle", PyVal.str "ok")] (by decide)
    exact hlast

/-- C3 counterexample: `is_analyzed` does default to false, but in a fully
successful run the FIRST persisted state of the row already has
`is_analyzed = true` with an empty interpretation (views.py line 151 sets
`is_analyzed=True` at creation, before `interpret_dream` runs), so a
persisted record with `is_analyzed` true and no interpretation attached is
observable mid-pipeline. -/
theorem is_analyzed_claim_counterexample :
    dreamDefaultIsAnalyzed = false ∧
    (analyse_from_voice true (Option.some "rêve test")
        (Option.some ([("joie", (1 : ℚ))], ("joie", 1))) ⟨[], []⟩ false
        Option.none
        (Option.some [("Émotionnelle", PyVal.str "ok")])).persisted.head? =
      Option.some
        { transcription := "rêve test"
          emotions := [("joie", (1 : ℚ))]
          dominant_emotion := Option.some "joie"
          dream_type := Option.some "rêve"
          interpretation := []
          image := Option.none
          is_analyzed := true } := by
  have hdt : classify_dream (Option.some [("joie", (1 : ℚ))])
      (⟨[], []⟩ : EmotionRef) = Option.some "rêve" := by
    simp [classify_dream, contributingScores, safeAvg]
  exact ⟨rfl, by simp [analyse_from_voice, hdt]⟩

/-- C3 amended: `is_analyzed` defaults to false; the pipeline persists the
row with `is_analyzed` already true as soon as emotion analysis succeeds,
before interpretation is attached; but no row SURVIVES the pipeline in
that state — a surviving row has `is_analyzed = true` and carries the
successful interpretation, and on interpretation failure the partial row
is deleted. -/
theorem dream_is_analyzed_amended :
    dreamDefaultIsAnalyzed = false ∧
    (∀ (audio : Bool) (tr : Option String)
       (emo : Option (List (String × ℚ) × (String × ℚ))) (ref : EmotionRef)
       (imgS : Bool) (imgV : Option String)
       (interp : Option (List (String × PyVal))) (d : DreamState),
       (analyse_from_voice audio tr emo ref imgS imgV interp).finalDb =
         Option.some d →
       d.is_analyzed = true ∧
       ∃ iv, interp = Option.some iv ∧ d.interpretation = iv) ∧
    (∀ (audio : Bool) (tr : Option String)
       (emo : Option (List (String × ℚ) × (String × ℚ))) (ref : EmotionRef)
       (imgS : Bool) (imgV : Option String),
       (analyse_from_voice audio tr emo ref imgS imgV Option.none).finalDb =
         Option.none) := by
  refine ⟨rfl, ?_, ?_⟩
  · intro audio tr emo ref imgS imgV interp d h
    cases audio with
    | false => simp [analyse_from_voice] at h
    | true =>
      cases tr with
      | none => simp [analyse_from_voice] at h
      | some t =>
        by_cases ht : t = ""
        · simp [analyse_from_voice, ht] at h
        · cases emo with
          | none => simp [analyse_from_voice, ht] at h
          | some sd =>
            obtain ⟨scores, dominant⟩ := sd
            cases interp with
            | none => simp [analyse_from_voice, ht] at h
            | some iv =>
              cases imgS with
              | false =>
                have hfd : (analyse_from_voice true (Option.some t)
                    (Option.some (scores, dominant)) ref false imgV
                    (Option.some iv)).finalDb = Option.some
                      { transcription := t
                        emotions := scores
                        dominant_emotion := Option.some dominant.1
                        dream_type := classify_dream (Option.some scores) ref
                        interpretation := iv
                        image := Option.none
                        is_analyzed := true } := by
                  simp [analyse_from_voice, ht]
                rw [hfd] at h
                have hd := Option.some.inj h
                subst hd
                exact ⟨rfl, iv, rfl, rfl⟩
              | true =>
                have hfd : (analyse_from_voice true (Option.some t)
                    (Option.some (scores, dominant)) ref true imgV
                    (Option.some iv)).finalDb = Option.some
                      { transcription := t
                        emotions := scores
                        dominant_emotion := Option.some dominant.1
                        dream_type := classify_dream (Option.some scores) ref
                        interpretation := iv
                        image := imgV
                        is_analyzed := true } := by
                  simp [analyse_from_voice, ht]
                rw [hfd] at h
                have hd := Option.some.inj h
                subst hd
                exact ⟨rfl, iv, rfl, rfl⟩
  · intro audio tr emo ref imgS imgV
    cases audio with
    | false => simp [analyse_from_voice]
    | true =>
      cases tr with
      | none => simp [analyse_from_voice]
      | some t =>
        by_cases ht : t = ""
        · simp [analyse_from_voice, ht]
        · cases emo with
          | none => simp [analyse_from_voice, ht]
          | some sd =>
            obtain ⟨scores, dominant⟩ := sd
            simp [analyse_from_voice, ht]

/-- Witness for C3 amended: every hypothesis discharged on a concrete
successful run — the surviving row is analyzed and carries the
interpretation. -/
theorem dream_is_analyzed_amended_witness :
    ∃ d, (analyse_from_voice true (Option.some "rêve test")
        (Option.some ([("joie", (1 : ℚ))], ("joie", 1))) ⟨[], []⟩ false
        Option.none
        (Option.some [("Émotionnelle", PyVal.str "ok")])).finalDb =
      Option.some d ∧
      d.is_analyzed = true ∧
      d.interpretation = [("Émotionnelle", PyVal.str "ok")] := by
  have hfd : (analyse_from_voice true (Option.some "rêve test")
      (Option.some ([("joie", (1 : ℚ))], ("joie", 1))) ⟨[], []⟩ false
      Option.none
      (Option.some [("Émotionnelle", PyVal.str "ok")])).finalDb = Option.some
        { transcription := "rêve test"
          emotions := [("joie", (1 : ℚ))]
          dominant_emotion := Option.some "joie"
          dream_type := classify_dream (Option.some [("joie", (1 : ℚ))])
            (⟨[], []⟩ : EmotionRef)
          interpretation := [("Émotionnelle", PyVal.str "ok")]
          image := Option.none
          is_analyzed := true } := by
    simp [analyse_from_voice]
  obtain ⟨hiz, iv, hiv, hint⟩ := dream_is_analyzed_amended.2.1 true
    (Option.some "rêve test")
    (Option.some ([("joie", (1 : ℚ))], ("joie", 1))) ⟨[], []⟩ false
    Option.none (Option.some [("Émotionnelle", PyVal.str "ok")]) _ hfd
  refine ⟨_, hfd, hiz, ?_⟩
  rw [hint, ← Option.some.inj hiv]

end Onyria
